import Mathlib

/-!
Verification of the commit-description engine in
`scripts/auto_commit_from_diff.py`.

The Python code is shallowly embedded: Python `str` values become Lean
`String`, with the relevant `str` methods re-implemented as structurally
recursive functions over `String.data` (the underlying `List Char`), so
that every definition is executable and kernel-evaluable.  `.lower()` is
modelled by its ASCII case mapping (the only characters the engine ever
case-folds are ASCII; the Chinese keyword characters are case-less).
Python `str.splitlines()` is modelled as splitting on the newline
character, the only line separator occurring in git output, and
`str.strip()` strips the ASCII whitespace characters.
Fallible code (a Python function that can raise) returns `Option`/`Except`.
-/

namespace AutoCommit

/-! ### Character-level primitives -/

/-- ASCII lower-case letters, the extension of the regex range `a-z`. -/
def lowerLetters : List Char :=
  ['a', 'b', 'c', 'd', 'e', 'f', 'g', 'h', 'i', 'j', 'k', 'l', 'm',
   'n', 'o', 'p', 'q', 'r', 's', 't', 'u', 'v', 'w', 'x', 'y', 'z']

/-- ASCII upper-case letters, the extension of the regex range `A-Z`. -/
def upperLetters : List Char :=
  ['A', 'B', 'C', 'D', 'E', 'F', 'G', 'H', 'I', 'J', 'K', 'L', 'M',
   'N', 'O', 'P', 'Q', 'R', 'S', 'T', 'U', 'V', 'W', 'X', 'Y', 'Z']

/-- ASCII digits, the extension of the regex range `0-9`. -/
def digitChars : List Char :=
  ['0', '1', '2', '3', '4', '5', '6', '7', '8', '9']

/-- ASCII case folding of a single character: models Python `str.lower`
on the characters this program actually lower-cases. -/
def pyLowerChar (c : Char) : Char :=
  match c with
  | 'A' => 'a' | 'B' => 'b' | 'C' => 'c' | 'D' => 'd' | 'E' => 'e' | 'F' => 'f'
  | 'G' => 'g' | 'H' => 'h' | 'I' => 'i' | 'J' => 'j' | 'K' => 'k' | 'L' => 'l'
  | 'M' => 'm' | 'N' => 'n' | 'O' => 'o' | 'P' => 'p' | 'Q' => 'q' | 'R' => 'r'
  | 'S' => 's' | 'T' => 't' | 'U' => 'u' | 'V' => 'v' | 'W' => 'w' | 'X' => 'x'
  | 'Y' => 'y' | 'Z' => 'z'
  | c => c

/-- Whitespace characters stripped by Python `str.strip()` (ASCII part). -/
def pyIsSpace (c : Char) : Bool :=
  c == ' ' || c == '\t' || c == '\n' || c == '\r' || c == '\x0b' || c == '\x0c'

/-! ### List-of-characters primitives -/

/-- Remove the trailing run of characters satisfying `p` (right strip). -/
def rstripWhile (p : Char → Bool) : List Char → List Char
  | [] => []
  | c :: cs =>
    match rstripWhile p cs with
    | [] => if p c then [] else [c]
    | d :: ds => c :: d :: ds

/-- Remove the leading and trailing runs of characters satisfying `p`:
models Python `str.strip(chars)`. -/
def stripBoth (p : Char → Bool) (l : List Char) : List Char :=
  rstripWhile p (l.dropWhile p)

/-- Split a character list at every occurrence of `sep`; always returns at
least one (possibly empty) group.  Models Python `str.split(sep)` for a
one-character separator. -/
def splitCh (sep : Char) : List Char → List (List Char)
  | [] => [[]]
  | c :: cs =>
    match splitCh sep cs with
    | [] => [[]]
    | grp :: rest => if c == sep then [] :: grp :: rest else (c :: grp) :: rest

/-- Boolean prefix test on character lists. -/
def isPrefixL : List Char → List Char → Bool
  | [], _ => true
  | _ :: _, [] => false
  | a :: as, b :: bs => a == b && isPrefixL as bs

/-- Boolean substring test on character lists: models Python `needle in hay`. -/
def containsL (needle : List Char) : List Char → Bool
  | [] => needle.isEmpty
  | c :: cs => isPrefixL needle (c :: cs) || containsL needle cs

/-! ### String-level primitives (Python `str` methods) -/

/-- Python `str.lower()` (ASCII case mapping). -/
def pyLower (s : String) : String :=
  ⟨s.data.map pyLowerChar⟩

/-- Python `str.strip()` with no argument (whitespace both ends). -/
def py_strip (s : String) : String :=
  ⟨stripBoth pyIsSpace s.data⟩

/-- Python `s.split(sep)` for a one-character separator. -/
def py_split (s : String) (sep : Char) : List String :=
  (splitCh sep s.data).map (fun grp => ⟨grp⟩)

/-- Python `s.startswith(pre)`. -/
def py_startswith (s pre : String) : Bool :=
  isPrefixL pre.data s.data

/-- Python `s.endswith(suf)`. -/
def py_endswith (s suf : String) : Bool :=
  isPrefixL suf.data.reverse s.data.reverse

/-- Python `needle in hay` on strings. -/
def py_in (needle hay : String) : Bool :=
  containsL needle.data hay.data

/-- Python `sep.join(items)`. -/
def py_join (sep : String) : List String → String
  | [] => ""
  | [s] => s
  | s :: rest => s ++ sep ++ py_join sep rest

/-- Lexicographic (code-point) comparison of character lists, the order
Python `sorted` uses on strings. -/
def lexLe : List Char → List Char → Bool
  | [], _ => true
  | _ :: _, [] => false
  | a :: as, b :: bs =>
    if a.toNat = b.toNat then lexLe as bs else decide (a.toNat < b.toNat)

/-- Insert a string into a lexicographically sorted list of strings. -/
def orderedInsertStr (s : String) : List String → List String
  | [] => [s]
  | t :: ts => if lexLe s.data t.data then s :: t :: ts else t :: orderedInsertStr s ts

/-- Insertion sort on strings by code-point order: models Python `sorted`. -/
def sortStrs : List String → List String
  | [] => []
  | s :: ss => orderedInsertStr s (sortStrs ss)

/-! ### Constant tables from the source -/

/-- The fixed 11-value commit-type taxonomy (`ALLOWED_TYPES`). -/
def ALLOWED_TYPES : List String :=
  ["feat", "fix", "refactor", "docs", "style", "test", "chore", "perf", "ci",
   "build", "revert"]

def DOC_EXTENSIONS : List String := [".md", ".rst", ".adoc", ".txt"]

def STYLE_EXTENSIONS : List String := [".css", ".scss", ".sass", ".less", ".styl"]

def DOC_BASENAMES : List String := ["readme.md", "changelog.md", "license", "license.md"]

def STYLE_CONFIG_BASENAMES : List String :=
  [".editorconfig", ".prettierrc", ".stylelintrc", ".eslintrc", ".eslintrc.js",
   ".eslintrc.cjs", ".eslintrc.json"]

def BUILD_BASENAMES : List String :=
  ["makefile", "dockerfile", "docker-compose.yml", "docker-compose.yaml",
   "package.json", "pnpm-lock.yaml", "yarn.lock", "package-lock.json", "pom.xml",
   "build.gradle", "build.gradle.kts", "gradle.properties", "pyproject.toml",
   "requirements.txt"]

def CI_PATH_HINTS : List String :=
  [".github/workflows/", ".gitlab-ci.yml", ".circleci/", "azure-pipelines.yml",
   "azure-pipelines.yaml", "jenkinsfile"]

def ROOT_SCOPE_BASENAMES : List String :=
  [".gitignore", ".gitattributes", ".npmrc", ".nvmrc", "readme.md", "license",
   "license.md"]

def FIX_KEYWORDS : List String :=
  ["fix", "bug", "hotfix", "crash", "error", "exception", "null", "patch",
   "修复", "错误", "异常"]

def REFACTOR_KEYWORDS : List String :=
  ["refactor", "cleanup", "restructure", "rename", "重构", "整理"]

def PERF_KEYWORDS : List String :=
  ["perf", "performance", "optimiz", "benchmark", "性能", "优化"]

/-! ### Path helpers -/

/-- `normalize_path`: replace backslashes by forward slashes and strip
surrounding whitespace. -/
def normalize_path (path : String) : String :=
  py_strip ⟨path.data.map (fun c => if c == '\\' then '/' else c)⟩

/-- `split_path`: split the normalized path on `/` keeping only non-empty
segments. -/
def split_path (path : String) : List String :=
  (splitCh '/' (normalize_path path).data).filterMap
    (fun part => if part.isEmpty then none else some ⟨part⟩)

/-- `pathlib.Path(path).name`: the last path component, with empty
components and `.` components dropped. -/
def pathName (path : String) : String :=
  let comps := (splitCh '/' path.data).filter (fun seg => !seg.isEmpty && seg ≠ ['.'])
  ⟨comps.getLastD []⟩

/-- `pathlib.Path(path).suffix`: the final dot-extension of the name,
empty when the only dot is leading or trailing. -/
def pathSuffix (path : String) : String :=
  let name := (pathName path).data
  if name.contains '.' then
    let seg := name.reverse.takeWhile (fun c => c ≠ '.')
    if 0 < seg.length ∧ seg.length + 1 < name.length then ⟨'.' :: seg.reverse⟩ else ""
  else ""

/-- `extension`: lower-cased `Path(path).suffix`. -/
def extension (path : String) : String :=
  pyLower (pathSuffix path)

/-- `basename`: lower-cased `Path(path).name`. -/
def basename (path : String) : String :=
  pyLower (pathName path)

/-! ### Path classifiers -/

/-- `is_docs`. -/
def is_docs (path : String) : Bool :=
  let p := pyLower (normalize_path path)
  let b := basename p
  let parts := split_path p
  decide (extension p ∈ DOC_EXTENSIONS) || decide (b ∈ DOC_BASENAMES) ||
    decide ("docs" ∈ parts) || decide ("doc" ∈ parts) ||
    decide ("documentation" ∈ parts)

/-- `is_test`. -/
def is_test (path : String) : Bool :=
  let p := pyLower (normalize_path path)
  let b := basename p
  let parts := split_path p
  if parts.any (fun part =>
      decide (part ∈ (["test", "tests", "testing", "__tests__", "spec", "specs",
        "e2e"] : List String))) then
    true
  else
    py_startswith b "test_" || py_endswith b "_test.py" || py_endswith b ".spec.ts" ||
      py_endswith b ".spec.tsx" || py_endswith b ".spec.js" || py_endswith b ".spec.jsx"

/-- `is_ci`. -/
def is_ci (path : String) : Bool :=
  let p := pyLower (normalize_path path)
  if CI_PATH_HINTS.any (fun hint => py_startswith p hint) then
    true
  else
    decide (basename p ∈ (["jenkinsfile", ".gitlab-ci.yml"] : List String))

/-- `is_build`. -/
def is_build (path : String) : Bool :=
  let p := pyLower (normalize_path path)
  let b := basename p
  let parts := split_path p
  if decide (b ∈ BUILD_BASENAMES) then
    true
  else
    decide ("build" ∈ parts) || py_startswith b "vite.config" ||
      py_startswith b "webpack.config" || py_startswith b "rollup.config"

/-- `is_style`. -/
def is_style (path : String) : Bool :=
  let p := pyLower (normalize_path path)
  decide (extension p ∈ STYLE_EXTENSIONS) ||
    decide (basename p ∈ STYLE_CONFIG_BASENAMES)

/-- `is_perf`. -/
def is_perf (path : String) : Bool :=
  let p := pyLower (normalize_path path)
  py_in "perf" p || py_in "benchmark" p

/-- `has_keyword`. -/
def has_keyword (text : String) (keywords : List String) : Bool :=
  let lowered := pyLower text
  keywords.any (fun keyword => py_in keyword lowered)

/-! ### Content signal extractor -/

/-- `extract_content_signal`: keep only added/removed content lines of the
diff (metadata lines discarded, leading sign dropped), joined by newlines
and lower-cased. -/
def extract_content_signal (diff_text : String) : String :=
  let lines := py_split diff_text '\n'
  let content_lines := lines.filterMap (fun line =>
    if py_startswith line "diff --git " || py_startswith line "index " ||
        py_startswith line "@@ " || py_startswith line "--- " ||
        py_startswith line "+++ " then
      none
    else if py_startswith line "+" || py_startswith line "-" then
      some (⟨line.data.drop 1⟩ : String)
    else
      none)
  pyLower (py_join "\n" content_lines)

/-! ### Change parser -/

/-- The `Change` dataclass. -/
structure Change where
  status : String
  path : String
  old_path : Option String := none
deriving Repr, DecidableEq

/-- The fields of one raw status line (`line.split("\t")`). -/
def splitTab (line : String) : List String :=
  py_split line '\t'

/-- The loop body of `parse_name_status` over the split lines.  `none`
models the `IndexError` Python raises at `status_token[0]` when the
stripped status token of a non-blank line is empty. -/
def parseLines : List String → Option (List Change)
  | [] => some []
  | line :: rest =>
    if py_strip line = "" then parseLines rest
    else
      let parts := splitTab line
      let status_token := py_strip (parts.headD "")
      match status_token.data with
      | [] => none
      | s :: _ =>
        if (s = 'R' ∨ s = 'C') ∧ 3 ≤ parts.length then
          match parseLines rest with
          | none => none
          | some changes =>
            some ({ status := ⟨[s]⟩,
                    path := normalize_path (parts.getD 2 ""),
                    old_path := some (normalize_path (parts.getD 1 "")) } :: changes)
        else if 2 ≤ parts.length then
          match parseLines rest with
          | none => none
          | some changes =>
            some ({ status := ⟨[s]⟩,
                    path := normalize_path (parts.getD 1 ""),
                    old_path := none } :: changes)
        else
          parseLines rest

/-- `parse_name_status`: `none` models a raised `IndexError`. -/
def parse_name_status (raw : String) : Option (List Change) :=
  parseLines (py_split raw '\n')

/-! ### Change counts -/

/-- The four-bucket counts dictionary of `count_changes`. -/
structure Counts where
  A : Nat
  M : Nat
  D : Nat
  R : Nat
deriving Repr, DecidableEq

/-- One iteration of the `count_changes` loop. -/
def bump (counts : Counts) (change : Change) : Counts :=
  let status := change.status
  if status = "A" then { counts with A := counts.A + 1 }
  else if status = "M" then { counts with M := counts.M + 1 }
  else if status = "D" then { counts with D := counts.D + 1 }
  else if status = "R" then { counts with R := counts.R + 1 }
  else if status = "C" then { counts with A := counts.A + 1 }
  else { counts with M := counts.M + 1 }

/-- `count_changes`. -/
def count_changes (changes : List Change) : Counts :=
  changes.foldl bump ⟨0, 0, 0, 0⟩

/-! ### Type inference -/

/-- `infer_type`. -/
def infer_type (paths : List String) (diff_text : String) (counts : Counts) : String :=
  if paths.isEmpty then "chore"
  else if py_in "this reverts commit" (pyLower diff_text) then "revert"
  else if paths.all is_docs then "docs"
  else if paths.all is_test then "test"
  else if paths.all is_ci then "ci"
  else if paths.all is_build then "build"
  else if paths.all is_style then "style"
  else
    let joined_paths := pyLower (py_join " " paths)
    let content_signal := extract_content_signal diff_text
    let signal_text := joined_paths ++ "\n" ++ content_signal
    if paths.any is_perf || has_keyword signal_text PERF_KEYWORDS then "perf"
    else if has_keyword signal_text FIX_KEYWORDS then "fix"
    else if has_keyword signal_text REFACTOR_KEYWORDS then "refactor"
    else if 0 < counts.A then "feat"
    else "chore"

/-! ### Scope sanitization -/

/-- Membership in the regex character class `[a-zA-Z0-9._-]`. -/
def allowedChar (c : Char) : Bool :=
  decide (c ∈ lowerLetters) || decide (c ∈ upperLetters) || decide (c ∈ digitChars) ||
    c == '.' || c == '_' || c == '-'

/-- Characters stripped from both ends by `.strip("-.")`. -/
def stripChar (c : Char) : Bool :=
  c == '-' || c == '.'

/-- Replace every maximal run of characters outside `[a-zA-Z0-9._-]` by a
single hyphen: models `re.sub(r"[^a-zA-Z0-9._-]+", "-", ...)`.  The flag
records whether we are inside such a run. -/
def collapseAux : Bool → List Char → List Char
  | _, [] => []
  | inRun, c :: cs =>
    if allowedChar c then c :: collapseAux false cs
    else if inRun then collapseAux true cs
    else '-' :: collapseAux true cs

/-- The character-list form of `sanitize_scope`'s `cleaned` value:
substitute, strip `-` and `.` from both ends, lower-case. -/
def sanitizeList (l : List Char) : List Char :=
  (stripBoth stripChar (collapseAux false l)).map pyLowerChar

/-- `sanitize_scope`. -/
def sanitize_scope (scope : String) : String :=
  let cleaned := sanitizeList scope.data
  if cleaned.isEmpty then "repo" else ⟨cleaned⟩

/-! ### Scope inference -/

/-- One iteration of the `infer_scope` path loop: `none` when the path is
counted as root-like, otherwise the collected topic (the path's first
segment, with all leading dots stripped unless that would empty it). -/
def collectTop (path : String) : Option String :=
  let normalized := normalize_path path
  let parts := split_path normalized
  if parts.length ≤ 1 ∨ basename normalized ∈ ROOT_SCOPE_BASENAMES then
    none
  else
    let top := parts.headD ""
    some (if py_startswith top "." ∧ 1 < parts.length then
            (if (top.data.dropWhile (fun c => c == '.')).isEmpty then top
             else ⟨top.data.dropWhile (fun c => c == '.')⟩)
          else top)

/-- `infer_scope`.  The Python loop that fills `root_like` and `tops` in a
single pass is split into a count and a `filterMap` over the same
per-path function `collectTop`; `sorted(set(tops))` is `sortStrs` of the
deduplicated topics. -/
def infer_scope (paths : List String) (commit_type : String) : String :=
  if paths.isEmpty then "repo"
  else if commit_type = "ci" then "ci"
  else if commit_type = "docs" then "docs"
  else if commit_type = "build" then "build"
  else
    let root_like := paths.countP (fun path => (collectTop path).isNone)
    let tops := paths.filterMap collectTop
    let unique := sortStrs tops.dedup
    if unique.length = 1 then sanitize_scope (unique.headD "")
    else if 1 < unique.length then "multi"
    else if 0 < root_like then "repo"
    else "repo"

/-! ### Intro synthesis -/

/-- `infer_intro`. -/
def infer_intro (scope : String) (counts : Counts) (paths : List String)
    (max_files : Nat) : String :=
  let total := paths.length
  let preview := py_join "，" (paths.take max_files)
  let suffix := if max_files < total then " 等" ++ toString total ++ "个文件" else ""
  "对" ++ toString total ++ "个文件进行了变更（新增" ++ toString counts.A ++ "、修改" ++
    toString counts.M ++ "、删除" ++ toString counts.D ++ "、重命名" ++ toString counts.R ++
    "），主要集中在" ++ scope ++ "范围，涉及" ++ preview ++ suffix ++ "。"

/-! ### Remote generation adapter -/

/-- The parsed JSON reply of the remote generator, modelled as a record of
optional string fields (`none` = key absent, matching `data.get(key, "")`
on a string-valued JSON object). -/
structure AIReply where
  type : Option String
  scope : Option String
  theme : Option String
  intro : Option String
deriving Repr, DecidableEq

/-- `normalize_ai_result`: the argument is the outcome of `json.loads`
(`none` = the reply body failed to parse).  `Except.error` models a raised
`RuntimeError`, carrying the source's message. -/
def normalize_ai_result (raw : Option AIReply) :
    Except String (String × String × String × String) :=
  match raw with
  | none => .error "AI returned non-JSON content"
  | some data =>
    let commit_type := pyLower (py_strip (data.type.getD ""))
    let scope := sanitize_scope
      (if py_strip (data.scope.getD "") = "" then "repo" else py_strip (data.scope.getD ""))
    let theme := py_strip (data.theme.getD "")
    let intro := py_strip (data.intro.getD "")
    if commit_type ∉ ALLOWED_TYPES then .error ("AI returned invalid type: " ++ commit_type)
    else if theme = "" then .error "AI returned empty theme"
    else if intro = "" then .error "AI returned empty intro"
    else .ok (commit_type, scope, theme, intro)

/-- The remote/local selection step of `run` (lines 519-533), with the
transport abstracted: `raw` is the parsed reply handed to
`normalize_ai_result`, `localq` the locally inferred quadruple
`(type, scope, theme, intro)`.  Returns the chosen quadruple together
with the `ai_used` flag; `Except.error` models the strict-mode abort. -/
def select_result (localq : String × String × String × String)
    (raw : Option AIReply) (ai_required : Bool) :
    Except String ((String × String × String × String) × Bool) :=
  match normalize_ai_result raw with
  | .ok q => .ok (q, true)
  | .error e => if ai_required then .error e else .ok (localq, false)

/-! ### Character-level lemmas -/

/-- A sanitized character: in the class `[a-zA-Z0-9._-]` and not an ASCII
upper-case letter, i.e. in `[a-z0-9._-]`. -/
def sanitizedChar (c : Char) : Bool :=
  allowedChar c && !decide (c ∈ upperLetters)

theorem pyLowerChar_not_upper (c : Char) : pyLowerChar c ∉ upperLetters := by
  unfold pyLowerChar
  split <;> simp_all [upperLetters]

theorem pyLowerChar_eq_self (c : Char) (h : c ∉ upperLetters) : pyLowerChar c = c := by
  unfold pyLowerChar
  split <;> simp_all [upperLetters]

theorem pyLowerChar_idem (c : Char) : pyLowerChar (pyLowerChar c) = pyLowerChar c :=
  pyLowerChar_eq_self _ (pyLowerChar_not_upper c)

theorem pyLowerChar_stripChar (c : Char) : stripChar (pyLowerChar c) = stripChar c := by
  unfold pyLowerChar
  split <;> first | decide | rfl

theorem pyLowerChar_allowed (c : Char) (h : allowedChar c = true) :
    allowedChar (pyLowerChar c) = true := by
  unfold pyLowerChar
  split <;> first | decide | exact h

theorem pyLowerChar_sanitized (c : Char) (h : allowedChar c = true) :
    sanitizedChar (pyLowerChar c) = true := by
  have h1 := pyLowerChar_allowed c h
  have h2 := pyLowerChar_not_upper c
  simp [sanitizedChar, h1, h2]

theorem sanitizedChar_allowed (c : Char) (h : sanitizedChar c = true) :
    allowedChar c = true := by
  simp only [sanitizedChar, Bool.and_eq_true] at h
  exact h.1

theorem sanitizedChar_fixed (c : Char) (h : sanitizedChar c = true) :
    pyLowerChar c = c := by
  simp only [sanitizedChar, Bool.and_eq_true, Bool.not_eq_true', decide_eq_false_iff_not] at h
  exact pyLowerChar_eq_self c h.2

/-! ### Strip lemmas -/

theorem head_dropWhile_false (p : Char → Bool) (l : List Char) (c : Char)
    (h : (l.dropWhile p).head? = some c) : p c = false := by
  induction l with
  | nil => simp at h
  | cons a as ih =>
    by_cases hp : p a = true
    · rw [List.dropWhile_cons_of_pos hp] at h
      exact ih h
    · rw [List.dropWhile_cons_of_neg hp] at h
      simp only [List.head?_cons, Option.some.injEq] at h
      rw [← h]
      exact Bool.eq_false_iff.mpr hp

theorem dropWhile_id (p : Char → Bool) (l : List Char)
    (h : ∀ c, l.head? = some c → p c = false) : l.dropWhile p = l := by
  cases l with
  | nil => rfl
  | cons a as =>
    have := h a (by simp)
    rw [List.dropWhile_cons_of_neg (by simp [this])]

theorem rstripWhile_subset (p : Char → Bool) (l : List Char) (c : Char)
    (h : c ∈ rstripWhile p l) : c ∈ l := by
  induction l with
  | nil => simp [rstripWhile] at h
  | cons a as ih =>
    unfold rstripWhile at h
    revert h
    split
    · intro h
      split at h <;> simp_all
    · rename_i d ds hrs
      intro h
      rcases List.mem_cons.mp h with h | h
      · simp [h]
      · exact List.mem_cons_of_mem a (ih (hrs ▸ h))

theorem rstripWhile_last (p : Char → Bool) (l : List Char) (c : Char)
    (h : (rstripWhile p l).getLast? = some c) : p c = false := by
  induction l with
  | nil => simp [rstripWhile] at h
  | cons a as ih =>
    unfold rstripWhile at h
    revert h
    split
    · by_cases hp : p a = true
      · rw [if_pos hp]
        intro h
        simp at h
      · rw [if_neg hp]
        intro h
        simp only [List.getLast?_singleton, Option.some.injEq] at h
        rw [← h]
        exact Bool.eq_false_iff.mpr hp
    · rename_i d ds hrs
      intro h
      rw [List.getLast?_cons_cons] at h
      apply ih
      rw [hrs]
      exact h

theorem rstripWhile_head (p : Char → Bool) (l : List Char)
    (h : rstripWhile p l ≠ []) : (rstripWhile p l).head? = l.head? := by
  cases l with
  | nil => rfl
  | cons a as =>
    unfold rstripWhile
    unfold rstripWhile at h
    revert h
    split
    · intro h
      split <;> simp_all
    · intro _
      simp

theorem rstripWhile_id (p : Char → Bool) (l : List Char)
    (h : ∀ c, l.getLast? = some c → p c = false) : rstripWhile p l = l := by
  induction l with
  | nil => rfl
  | cons a as ih =>
    cases as with
    | nil =>
      have := h a (by simp)
      simp [rstripWhile, this]
    | cons b bs =>
      have hrec : rstripWhile p (b :: bs) = b :: bs := by
        apply ih
        intro c hc
        exact h c (by rw [List.getLast?_cons_cons]; exact hc)
      unfold rstripWhile
      rw [hrec]

theorem stripBoth_subset (p : Char → Bool) (l : List Char) (c : Char)
    (h : c ∈ stripBoth p l) : c ∈ l :=
  (List.dropWhile_sublist p).subset (rstripWhile_subset p _ c h)

theorem stripBoth_head (p : Char → Bool) (l : List Char) (c : Char)
    (h : (stripBoth p l).head? = some c) : p c = false := by
  have hne : stripBoth p l ≠ [] := by
    intro he
    rw [he] at h
    simp at h
  have := rstripWhile_head p (l.dropWhile p) hne
  rw [stripBoth] at h
  rw [this] at h
  exact head_dropWhile_false p l c h

theorem stripBoth_last (p : Char → Bool) (l : List Char) (c : Char)
    (h : (stripBoth p l).getLast? = some c) : p c = false :=
  rstripWhile_last p _ c h

theorem stripBoth_id (p : Char → Bool) (l : List Char)
    (hh : ∀ c, l.head? = some c → p c = false)
    (hl : ∀ c, l.getLast? = some c → p c = false) : stripBoth p l = l := by
  rw [stripBoth, dropWhile_id p l hh]
  exact rstripWhile_id p l hl

/-! ### Collapse lemmas -/

theorem collapseAux_allowed (b : Bool) (l : List Char) (c : Char)
    (h : c ∈ collapseAux b l) : allowedChar c = true := by
  induction l generalizing b with
  | nil => simp [collapseAux] at h
  | cons a as ih =>
    unfold collapseAux at h
    revert h
    split
    · intro h
      rcases List.mem_cons.mp h with h | h
      · simp_all
      · exact ih false h
    · split
      · intro h
        exact ih true h
      · intro h
        rcases List.mem_cons.mp h with h | h
        · simp [h]; decide
        · exact ih true h

theorem collapseAux_id (l : List Char) (h : ∀ c ∈ l, allowedChar c = true) :
    collapseAux false l = l := by
  induction l with
  | nil => rfl
  | cons a as ih =>
    have ha := h a (by simp)
    unfold collapseAux
    rw [if_pos ha, ih (fun c hc => h c (List.mem_cons_of_mem a hc))]

/-! ### Sanitize lemmas -/

theorem sanitizeList_sanitized (l : List Char) (c : Char) (h : c ∈ sanitizeList l) :
    sanitizedChar c = true := by
  rw [sanitizeList] at h
  rcases List.mem_map.mp h with ⟨c₀, hc₀, rfl⟩
  exact pyLowerChar_sanitized c₀
    (collapseAux_allowed false l c₀ (stripBoth_subset _ _ _ hc₀))

theorem sanitizeList_head (l : List Char) (c : Char)
    (h : (sanitizeList l).head? = some c) : stripChar c = false := by
  rw [sanitizeList, List.head?_map] at h
  cases hh : (stripBoth stripChar (collapseAux false l)).head? with
  | none => rw [hh] at h; simp at h
  | some c₀ =>
    rw [hh] at h
    simp only [Option.map_some', Option.some.injEq] at h
    rw [← h, pyLowerChar_stripChar]
    exact stripBoth_head _ _ _ hh

theorem sanitizeList_last (l : List Char) (c : Char)
    (h : (sanitizeList l).getLast? = some c) : stripChar c = false := by
  rw [sanitizeList, List.getLast?_map] at h
  cases hh : (stripBoth stripChar (collapseAux false l)).getLast? with
  | none => rw [hh] at h; simp at h
  | some c₀ =>
    rw [hh] at h
    simp only [Option.map_some', Option.some.injEq] at h
    rw [← h, pyLowerChar_stripChar]
    exact stripBoth_last _ _ _ hh

theorem sanitizeList_fixed (m : List Char)
    (h1 : ∀ c ∈ m, sanitizedChar c = true)
    (h2 : ∀ c, m.head? = some c → stripChar c = false)
    (h3 : ∀ c, m.getLast? = some c → stripChar c = false) :
    sanitizeList m = m := by
  rw [sanitizeList, collapseAux_id m (fun c hc => sanitizedChar_allowed c (h1 c hc)),
      stripBoth_id _ _ h2 h3]
  calc m.map pyLowerChar = m.map id :=
        List.map_congr_left (fun c hc => sanitizedChar_fixed c (h1 c hc))
    _ = m := List.map_id m

theorem sanitize_scope_data_ne (s : String) : (sanitize_scope s).data ≠ [] := by
  rw [sanitize_scope]
  by_cases he : (sanitizeList s.data).isEmpty = true
  · rw [if_pos he]
    decide
  · rw [if_neg he]
    simpa [List.isEmpty_iff] using he

theorem sanitize_scope_sanitized (s : String) (c : Char)
    (h : c ∈ (sanitize_scope s).data) : sanitizedChar c = true := by
  rw [sanitize_scope] at h
  by_cases he : (sanitizeList s.data).isEmpty = true
  · rw [if_pos he] at h
    fin_cases h <;> decide
  · rw [if_neg he] at h
    exact sanitizeList_sanitized s.data c h

theorem sanitize_scope_head (s : String) (c : Char)
    (h : (sanitize_scope s).data.head? = some c) : stripChar c = false := by
  rw [sanitize_scope] at h
  by_cases he : (sanitizeList s.data).isEmpty = true
  · rw [if_pos he] at h
    have h' : ('r' : Char) = c := by injection h
    rw [← h']
    decide
  · rw [if_neg he] at h
    exact sanitizeList_head s.data c h

theorem sanitize_scope_last (s : String) (c : Char)
    (h : (sanitize_scope s).data.getLast? = some c) : stripChar c = false := by
  rw [sanitize_scope] at h
  by_cases he : (sanitizeList s.data).isEmpty = true
  · rw [if_pos he] at h
    have h' : ('o' : Char) = c := by
      have hrepo : ("repo" : String).data.getLast? = some 'o' := by decide
      rw [hrepo] at h
      injection h
    rw [← h']
    decide
  · rw [if_neg he] at h
    exact sanitizeList_last s.data c h

theorem sanitize_scope_fixed (t : String) (h0 : t.data ≠ [])
    (h1 : ∀ c ∈ t.data, sanitizedChar c = true)
    (h2 : ∀ c, t.data.head? = some c → stripChar c = false)
    (h3 : ∀ c, t.data.getLast? = some c → stripChar c = false) :
    sanitize_scope t = t := by
  rw [sanitize_scope, sanitizeList_fixed t.data h1 h2 h3,
      if_neg (by simpa [List.isEmpty_iff] using h0)]

/-- C6: scope sanitization is idempotent: for every string `s`,
`sanitize_scope (sanitize_scope s) = sanitize_scope s`. -/
theorem sanitize_scope_idempotent (s : String) :
    sanitize_scope (sanitize_scope s) = sanitize_scope s :=
  sanitize_scope_fixed _ (sanitize_scope_data_ne s) (sanitize_scope_sanitized s)
    (sanitize_scope_head s) (sanitize_scope_last s)

/-! ### Sorting lemmas -/

theorem orderedInsertStr_perm (s : String) (l : List String) :
    (orderedInsertStr s l).Perm (s :: l) := by
  induction l with
  | nil => exact List.Perm.refl _
  | cons t ts ih =>
    by_cases h : lexLe s.data t.data = true
    · simp [orderedInsertStr, h]
    · simp only [orderedInsertStr, h, if_false, Bool.not_eq_true] at *
      exact (ih.cons t).trans (List.Perm.swap s t ts)

theorem sortStrs_perm (l : List String) : (sortStrs l).Perm l := by
  induction l with
  | nil => exact List.Perm.refl _
  | cons s ss ih =>
    exact (orderedInsertStr_perm s (sortStrs ss)).trans (ih.cons s)

/-! ### Scope-inference lemmas -/

/-- C7: scope inference is invariant under permutation of the path list:
for every commit type and every two path lists that are permutations of
each other, `infer_scope` returns the same scope. -/
theorem infer_scope_perm_invariant (commit_type : String) (paths₁ paths₂ : List String)
    (h : paths₁.Perm paths₂) :
    infer_scope paths₁ commit_type = infer_scope paths₂ commit_type := by
  by_cases h0 : paths₁ = []
  · subst h0
    rw [(List.Perm.eq_nil h.symm : paths₂ = [])]
  · have h0' : paths₂ ≠ [] := fun he => h0 (List.Perm.eq_nil (he ▸ h))
    have e1 : paths₁.isEmpty = false := by simp [h0]
    have e2 : paths₂.isEmpty = false := by simp [h0']
    have htops : (paths₁.filterMap collectTop).Perm (paths₂.filterMap collectTop) :=
      h.filterMap _
    have hu : (sortStrs (paths₁.filterMap collectTop).dedup).Perm
        (sortStrs (paths₂.filterMap collectTop).dedup) :=
      (sortStrs_perm _).trans ((htops.dedup).trans (sortStrs_perm _).symm)
    have hulen := hu.length_eq
    have hroot : paths₁.countP (fun path => (collectTop path).isNone) =
        paths₂.countP (fun path => (collectTop path).isNone) := h.countP_eq _
    simp only [infer_scope, e1, e2, Bool.false_eq_true, if_false, hroot]
    by_cases hc1 : commit_type = "ci"
    · simp [hc1]
    by_cases hc2 : commit_type = "docs"
    · simp [hc1, hc2]
    by_cases hc3 : commit_type = "build"
    · simp [hc1, hc2, hc3]
    simp only [hc1, hc2, hc3, if_false]
    by_cases hl1 : (sortStrs (paths₁.filterMap collectTop).dedup).length = 1
    · rcases List.length_eq_one.mp hl1 with ⟨a, ha⟩
      have hb : sortStrs (paths₂.filterMap collectTop).dedup = [a] :=
        List.perm_singleton.mp (ha ▸ hu.symm)
      rw [ha, hb]
    · have hl2 : (sortStrs (paths₂.filterMap collectTop).dedup).length ≠ 1 :=
        fun hh => hl1 (hulen.trans hh)
      rw [if_neg hl1, if_neg hl2, hulen]

/-- Shared case analysis for C10: the result of `infer_scope` is one of
the literal scopes or a `sanitize_scope` value. -/
theorem infer_scope_cases (paths : List String) (commit_type : String) :
    infer_scope paths commit_type ∈ (["repo", "ci", "docs", "build", "multi"] : List String) ∨
    ∃ t, infer_scope paths commit_type = sanitize_scope t := by
  simp only [infer_scope]
  by_cases h0 : paths.isEmpty = true
  · simp [h0]
  · simp only [h0, if_false]
    split_ifs <;> simp

/-- C10: for every path list and commit type, the scope returned by
`infer_scope` is already a fixed point of `sanitize_scope`: it is
non-empty, contains only characters in `[a-z0-9._-]` (the sanitized
class), has no leading or trailing hyphen or dot, and
`sanitize_scope (infer_scope paths t) = infer_scope paths t`. -/
theorem infer_scope_sanitized_fixed_point (paths : List String) (commit_type : String) :
    (infer_scope paths commit_type).data ≠ [] ∧
    (∀ c ∈ (infer_scope paths commit_type).data, sanitizedChar c = true) ∧
    (∀ c, (infer_scope paths commit_type).data.head? = some c → stripChar c = false) ∧
    (∀ c, (infer_scope paths commit_type).data.getLast? = some c → stripChar c = false) ∧
    sanitize_scope (infer_scope paths commit_type) = infer_scope paths commit_type := by
  rcases infer_scope_cases paths commit_type with hmem | ⟨t, ht⟩
  · simp only [List.mem_cons, List.mem_singleton, List.not_mem_nil, or_false] at hmem
    rcases hmem with h | h | h | h | h <;> rw [h] <;>
      exact ⟨by decide, by decide, by decide, by decide, by decide⟩
  · rw [ht]
    exact ⟨sanitize_scope_data_ne t, sanitize_scope_sanitized t, sanitize_scope_head t,
      sanitize_scope_last t,
      sanitize_scope_fixed _ (sanitize_scope_data_ne t) (sanitize_scope_sanitized t)
        (sanitize_scope_head t) (sanitize_scope_last t)⟩

/-! ### Type-inference lemmas -/

/-- C2 (amended): for every non-empty change list, `infer_type` returns
`revert` if and only if the full diff text, lower-cased, contains the
phrase "this reverts commit"; this check is the first rule evaluated, so
it takes priority over every other type-inference rule. -/
theorem infer_type_revert_iff (paths : List String) (diff_text : String) (counts : Counts)
    (h : paths ≠ []) :
    infer_type paths diff_text counts = "revert" ↔
      py_in "this reverts commit" (pyLower diff_text) = true := by
  have e : paths.isEmpty = false := by simp [h]
  simp only [infer_type, e, Bool.false_eq_true, if_false]
  by_cases hr : py_in "this reverts commit" (pyLower diff_text) = true
  · rw [if_pos hr]
    simp [hr]
  · rw [if_neg hr]
    constructor
    · intro hEq
      exfalso
      split_ifs at hEq <;> exact absurd hEq (by decide)
    · intro hc
      exact absurd hc hr

/-- C2 (counterexample): at the concrete input below the code returns
`revert` although the extracted content signal does not contain the
revert phrase, refuting the claim's "if and only if the content signal
contains the phrase". -/
theorem infer_type_revert_claim_counterexample :
    ¬ ((infer_type ["a"] "index this reverts commit" ⟨0, 0, 0, 0⟩ = "revert") ↔
        py_in "this reverts commit"
          (extract_content_signal "index this reverts commit") = true) := by
  decide

/-- C2 witness: the amended theorem applied at a concrete input. -/
theorem infer_type_revert_iff_witness :
    infer_type ["a"] "say this reverts commit x" ⟨0, 0, 0, 0⟩ = "revert" ↔
      py_in "this reverts commit" (pyLower "say this reverts commit x") = true :=
  infer_type_revert_iff ["a"] "say this reverts commit x" ⟨0, 0, 0, 0⟩ (by decide)

/-- C4: with a non-empty change list and no revert marker in the diff,
the five all-of category rules are evaluated in the fixed order
docs, test, ci, build, style, and the result is the first category whose
predicate holds for every changed path; a category with at least one
non-matching path is never produced by this block. -/
theorem infer_type_category_block (paths : List String) (diff_text : String) (counts : Counts)
    (h : paths ≠ [])
    (hrev : py_in "this reverts commit" (pyLower diff_text) = false) :
    (infer_type paths diff_text counts = "docs" ↔ (∀ p ∈ paths, is_docs p = true)) ∧
    (infer_type paths diff_text counts = "test" ↔
      ((∀ p ∈ paths, is_test p = true) ∧ ¬ (∀ p ∈ paths, is_docs p = true))) ∧
    (infer_type paths diff_text counts = "ci" ↔
      ((∀ p ∈ paths, is_ci p = true) ∧ ¬ (∀ p ∈ paths, is_test p = true) ∧
        ¬ (∀ p ∈ paths, is_docs p = true))) ∧
    (infer_type paths diff_text counts = "build" ↔
      ((∀ p ∈ paths, is_build p = true) ∧ ¬ (∀ p ∈ paths, is_ci p = true) ∧
        ¬ (∀ p ∈ paths, is_test p = true) ∧ ¬ (∀ p ∈ paths, is_docs p = true))) ∧
    (infer_type paths diff_text counts = "style" ↔
      ((∀ p ∈ paths, is_style p = true) ∧ ¬ (∀ p ∈ paths, is_build p = true) ∧
        ¬ (∀ p ∈ paths, is_ci p = true) ∧ ¬ (∀ p ∈ paths, is_test p = true) ∧
        ¬ (∀ p ∈ paths, is_docs p = true))) := by
  have e : paths.isEmpty = false := by simp [h]
  simp only [← List.all_eq_true]
  simp only [infer_type, e, Bool.false_eq_true, if_false, hrev]
  split_ifs <;> simp_all

/-- C4 witness: the category-block theorem applied at a concrete input. -/
theorem infer_type_category_block_witness :
    (infer_type ["a.md"] "" ⟨0, 0, 0, 0⟩ = "docs" ↔ (∀ p ∈ ["a.md"], is_docs p = true)) ∧
    (infer_type ["a.md"] "" ⟨0, 0, 0, 0⟩ = "test" ↔
      ((∀ p ∈ ["a.md"], is_test p = true) ∧ ¬ (∀ p ∈ ["a.md"], is_docs p = true))) ∧
    (infer_type ["a.md"] "" ⟨0, 0, 0, 0⟩ = "ci" ↔
      ((∀ p ∈ ["a.md"], is_ci p = true) ∧ ¬ (∀ p ∈ ["a.md"], is_test p = true) ∧
        ¬ (∀ p ∈ ["a.md"], is_docs p = true))) ∧
    (infer_type ["a.md"] "" ⟨0, 0, 0, 0⟩ = "build" ↔
      ((∀ p ∈ ["a.md"], is_build p = true) ∧ ¬ (∀ p ∈ ["a.md"], is_ci p = true) ∧
        ¬ (∀ p ∈ ["a.md"], is_test p = true) ∧ ¬ (∀ p ∈ ["a.md"], is_docs p = true))) ∧
    (infer_type ["a.md"] "" ⟨0, 0, 0, 0⟩ = "style" ↔
      ((∀ p ∈ ["a.md"], is_style p = true) ∧ ¬ (∀ p ∈ ["a.md"], is_build p = true) ∧
        ¬ (∀ p ∈ ["a.md"], is_ci p = true) ∧ ¬ (∀ p ∈ ["a.md"], is_test p = true) ∧
        ¬ (∀ p ∈ ["a.md"], is_docs p = true))) :=
  infer_type_category_block ["a.md"] "" ⟨0, 0, 0, 0⟩ (by decide) (by decide)

/-! ### Parser lemmas -/

/-- The per-line outcome of the `parse_name_status` loop body, for lines
that do not abort the parse: `none` when the line is blank or has fewer
than the required tab-separated fields (dropped silently), `some` the
parsed `Change` otherwise. -/
def lineToChange (line : String) : Option Change :=
  if py_strip line = "" then none
  else
    let parts := splitTab line
    match (py_strip (parts.headD "")).data with
    | [] => none
    | s :: _ =>
      if (s = 'R' ∨ s = 'C') ∧ 3 ≤ parts.length then
        some { status := ⟨[s]⟩,
               path := normalize_path (parts.getD 2 ""),
               old_path := some (normalize_path (parts.getD 1 "")) }
      else if 2 ≤ parts.length then
        some { status := ⟨[s]⟩,
               path := normalize_path (parts.getD 1 ""),
               old_path := none }
      else none

theorem parseLines_eq_filterMap (lines : List String)
    (h : ∀ line ∈ lines, py_strip line ≠ "" →
      py_strip ((splitTab line).headD "") ≠ "") :
    parseLines lines = some (lines.filterMap lineToChange) := by
  induction lines with
  | nil => rfl
  | cons line rest ih =>
    have hrest := ih (fun l hl => h l (List.mem_cons_of_mem line hl))
    by_cases hb : py_strip line = ""
    · simp only [parseLines, lineToChange, hb, if_pos, List.filterMap_cons_none, hrest,
        reduceIte]
    · have hs := h line (List.mem_cons_self line rest) hb
      have hs' : (py_strip ((splitTab line).headD "")).data ≠ [] := by
        intro hd
        apply hs
        have : py_strip ((splitTab line).headD "") = ("" : String) := by
          cases hp : py_strip ((splitTab line).headD "")
          simp_all
        exact this
      cases ht : (py_strip ((splitTab line).headD "")).data with
      | nil => exact absurd ht hs'
      | cons s srest =>
        simp only [parseLines, lineToChange, hb, if_neg, ht, hrest, List.filterMap_cons,
          reduceIte]
        split_ifs <;> simp

/-- C1 (counterexample): the claim says the parser is total and drops a
line whose status token is empty, but on the raw text consisting of the
single line `"\tx"` (non-blank, empty first field) the code raises
`IndexError` at `status_token[0]`, modelled by `none`. -/
theorem parse_name_status_counterexample : parse_name_status "\tx" = none := by
  decide

/-- C1 (amended): `parse_name_status` succeeds and never fails on every
raw newline-delimited text in which every non-blank line has a non-blank
first tab-separated field; each line maps independently to at most one
`Change`, with blank lines and non-blank lines having fewer than the
required fields dropped silently (they simply yield fewer changes).  A
non-blank line whose stripped status token is empty instead aborts the
parse with an `IndexError`. -/
theorem parse_name_status_total (raw : String)
    (h : ∀ line ∈ py_split raw '\n', py_strip line ≠ "" →
      py_strip ((splitTab line).headD "") ≠ "") :
    parse_name_status raw = some ((py_split raw '\n').filterMap lineToChange) :=
  parseLines_eq_filterMap _ h

/-- C1 witness: the amended theorem applied at a concrete raw text with a
rename line, a short (dropped) line and a blank line. -/
theorem parse_name_status_total_witness :
    parse_name_status "A\tf.txt\nR100\told\tnew\nbad\n" =
      some ((py_split "A\tf.txt\nR100\told\tnew\nbad\n" '\n').filterMap lineToChange) :=
  parse_name_status_total "A\tf.txt\nR100\told\tnew\nbad\n" (by decide)

/-! ### Topic-collection lemmas -/

/-- The topic the claim C3 describes, following the spec sentence: the
first path segment with exactly ONE leading dot removed when present,
kept unchanged when stripping would empty it. -/
def specTopicOneDot (top : String) : String :=
  if py_startswith top "." then
    (if (top.data.drop 1).isEmpty then top else ⟨top.data.drop 1⟩)
  else top

/-- C3 (counterexample): for the path `"..hidden/x"` (more than one
segment, not root-like) the code collects topic `"hidden"` — `lstrip(".")`
removes ALL leading dots — while the claim's one-dot stripping yields
`".hidden"`. -/
theorem collectTop_one_dot_counterexample :
    1 < (split_path (normalize_path "..hidden/x")).length ∧
    basename (normalize_path "..hidden/x") ∉ ROOT_SCOPE_BASENAMES ∧
    specTopicOneDot ((split_path (normalize_path "..hidden/x")).headD "") = ".hidden" ∧
    collectTop "..hidden/x" = some "hidden" ∧
    collectTop "..hidden/x" ≠
      some (specTopicOneDot ((split_path (normalize_path "..hidden/x")).headD "")) := by
  decide

/-- C3 (amended): for every path with more than one segment that is not
root-like, the collected topic is the path's first segment with ALL of
its leading dots removed when it starts with a dot, except that the
segment is kept unchanged when the stripping would leave an empty string
(so a first segment `"..hidden"` yields topic `"hidden"`). -/
theorem collectTop_strips_leading_dots (path : String)
    (h1 : 1 < (split_path (normalize_path path)).length)
    (h2 : basename (normalize_path path) ∉ ROOT_SCOPE_BASENAMES) :
    collectTop path =
      some (if py_startswith ((split_path (normalize_path path)).headD "") "." then
              (if (((split_path (normalize_path path)).headD "").data.dropWhile
                    (fun c => c == '.')).isEmpty then
                 (split_path (normalize_path path)).headD ""
               else ⟨((split_path (normalize_path path)).headD "").data.dropWhile
                    (fun c => c == '.')⟩)
            else (split_path (normalize_path path)).headD "") := by
  simp only [collectTop]
  rw [if_neg (by push_neg; exact ⟨by omega, h2⟩)]
  simp [h1]

/-- C3 witness: the amended theorem applied at a concrete path. -/
theorem collectTop_strips_leading_dots_witness :
    collectTop ".github/y" =
      some (if py_startswith ((split_path (normalize_path ".github/y")).headD "") "." then
              (if (((split_path (normalize_path ".github/y")).headD "").data.dropWhile
                    (fun c => c == '.')).isEmpty then
                 (split_path (normalize_path ".github/y")).headD ""
               else ⟨((split_path (normalize_path ".github/y")).headD "").data.dropWhile
                    (fun c => c == '.')⟩)
            else (split_path (normalize_path ".github/y")).headD "") :=
  collectTop_strips_leading_dots ".github/y" (by decide) (by decide)

/-! ### Intro-synthesis lemmas -/

/-- C8: for every `max_files ≥ 1`, a path list of exactly `max_files`
paths is listed in full with no "and N more files" suffix, while a path
list of `max_files + 1` paths lists only the first `max_files` paths and
appends the suffix reporting the total file count. -/
theorem infer_intro_max_files_boundary (scope : String) (counts : Counts)
    (max_files : Nat) (h : 1 ≤ max_files) (paths₁ paths₂ : List String)
    (h1 : paths₁.length = max_files) (h2 : paths₂.length = max_files + 1) :
    infer_intro scope counts paths₁ max_files =
      "对" ++ toString max_files ++ "个文件进行了变更（新增" ++ toString counts.A ++ "、修改" ++
        toString counts.M ++ "、删除" ++ toString counts.D ++ "、重命名" ++ toString counts.R ++
        "），主要集中在" ++ scope ++ "范围，涉及" ++ py_join "，" paths₁ ++ "。" ∧
    infer_intro scope counts paths₂ max_files =
      "对" ++ toString (max_files + 1) ++ "个文件进行了变更（新增" ++ toString counts.A ++
        "、修改" ++ toString counts.M ++ "、删除" ++ toString counts.D ++ "、重命名" ++
        toString counts.R ++ "），主要集中在" ++ scope ++ "范围，涉及" ++
        py_join "，" (paths₂.take max_files) ++
        (" 等" ++ toString (max_files + 1) ++ "个文件") ++ "。" := by
  constructor
  · simp only [infer_intro, h1]
    rw [List.take_of_length_le (le_of_eq h1), if_neg (lt_irrefl max_files)]
    simp
  · simp only [infer_intro, h2]
    rw [if_pos (Nat.lt_succ_self max_files)]

/-- C8 witness: the boundary theorem applied at `max_files = 1` with one
and two paths. -/
theorem infer_intro_max_files_boundary_witness :
    infer_intro "s" ⟨1, 0, 0, 0⟩ ["a"] 1 =
      "对" ++ toString 1 ++ "个文件进行了变更（新增" ++ toString 1 ++ "、修改" ++ toString 0 ++
        "、删除" ++ toString 0 ++ "、重命名" ++ toString 0 ++ "），主要集中在" ++ "s" ++
        "范围，涉及" ++ py_join "，" ["a"] ++ "。" ∧
    infer_intro "s" ⟨1, 0, 0, 0⟩ ["a", "b"] 1 =
      "对" ++ toString (1 + 1) ++ "个文件进行了变更（新增" ++ toString 1 ++ "、修改" ++
        toString 0 ++ "、删除" ++ toString 0 ++ "、重命名" ++ toString 0 ++ "），主要集中在" ++
        "s" ++ "范围，涉及" ++ py_join "，" (["a", "b"].take 1) ++
        (" 等" ++ toString (1 + 1) ++ "个文件") ++ "。" :=
  infer_intro_max_files_boundary "s" ⟨1, 0, 0, 0⟩ 1 (by decide) ["a"] ["a", "b"]
    (by decide) (by decide)

/-! ### Count lemmas -/

theorem count_changes_foldl (changes : List Change) (acc : Counts) :
    changes.foldl bump acc =
      ⟨acc.A + changes.countP (fun c => decide (c.status = "A" ∨ c.status = "C")),
       acc.M + changes.countP
         (fun c => decide (c.status ∉ (["A", "C", "D", "R"] : List String))),
       acc.D + changes.countP (fun c => decide (c.status = "D")),
       acc.R + changes.countP (fun c => decide (c.status = "R"))⟩ := by
  induction changes generalizing acc with
  | nil => cases acc; simp
  | cons c cs ih =>
    rw [List.foldl_cons, ih]
    simp only [bump]
    split_ifs <;> simp_all [List.countP_cons] <;> omega

/-- C9: for every change list, `count_changes` counts a Copy-status
change in the Added bucket, counts each of the four recognized statuses
in its own bucket, and counts every other status (i.e. everything outside
Added/Copy/Deleted/RenameOrCopy) in the Modified bucket. -/
theorem count_changes_spec (changes : List Change) :
    count_changes changes =
      ⟨changes.countP (fun c => decide (c.status = "A" ∨ c.status = "C")),
       changes.countP
         (fun c => decide (c.status ∉ (["A", "C", "D", "R"] : List String))),
       changes.countP (fun c => decide (c.status = "D")),
       changes.countP (fun c => decide (c.status = "R"))⟩ := by
  rw [count_changes, count_changes_foldl]
  simp

/-! ### Remote-adapter lemmas -/

/-- C5: remote-result validation is atomic: `normalize_ai_result` raises
exactly when the reply failed to parse, or its trimmed lower-cased `type`
is outside the 11-value taxonomy, or its trimmed `theme` or `intro` is
empty; and on any such rejection the non-strict selection step returns
the complete locally inferred quadruple, never adopting any individual
remote field. -/
theorem normalize_ai_result_atomic (raw : Option AIReply)
    (localq : String × String × String × String) :
    ((∃ e, normalize_ai_result raw = .error e) ↔
      (raw = none ∨ ∃ d, raw = some d ∧
        (pyLower (py_strip (d.type.getD "")) ∉ ALLOWED_TYPES ∨
          py_strip (d.theme.getD "") = "" ∨ py_strip (d.intro.getD "") = ""))) ∧
    (∀ e, normalize_ai_result raw = .error e →
      select_result localq raw false = .ok (localq, false)) := by
  constructor
  · cases raw with
    | none => simp [normalize_ai_result]
    | some d =>
      simp only [normalize_ai_result]
      split_ifs with h1 h2 h3 <;> simp_all
  · intro e he
    rw [select_result, he]
    rfl

/-- C5 witness: the atomicity theorem applied at a reply missing `intro`,
showing the fallback keeps the whole local quadruple. -/
theorem normalize_ai_result_atomic_witness :
    ((∃ e, normalize_ai_result (some ⟨some "feat", none, some "t", none⟩) = .error e) ↔
      (some (⟨some "feat", none, some "t", none⟩ : AIReply) = none ∨
        ∃ d, some (⟨some "feat", none, some "t", none⟩ : AIReply) = some d ∧
          (pyLower (py_strip (d.type.getD "")) ∉ ALLOWED_TYPES ∨
            py_strip (d.theme.getD "") = "" ∨ py_strip (d.intro.getD "") = ""))) ∧
    (∀ e, normalize_ai_result (some ⟨some "feat", none, some "t", none⟩) = .error e →
      select_result ("chore", "repo", "th", "in")
        (some ⟨some "feat", none, some "t", none⟩) false =
        .ok (("chore", "repo", "th", "in"), false)) :=
  normalize_ai_result_atomic (some ⟨some "feat", none, some "t", none⟩)
    ("chore", "repo", "th", "in")

/-- C7 witness: the permutation-invariance theorem applied at a concrete
pair of permuted path lists. -/
theorem infer_scope_perm_invariant_witness :
    infer_scope ["b/y", "a/x"] "feat" = infer_scope ["a/x", "b/y"] "feat" :=
  infer_scope_perm_invariant "feat" ["b/y", "a/x"] ["a/x", "b/y"] (by decide)

/-- C10 witness: the fixed-point theorem applied at a concrete input. -/
theorem infer_scope_sanitized_fixed_point_witness :
    sanitize_scope (infer_scope ["src/a.py"] "feat") = infer_scope ["src/a.py"] "feat" :=
  (infer_scope_sanitized_fixed_point ["src/a.py"] "feat").2.2.2.2

end AutoCommit
